import Mathlib

/-!
Verification of the piece-checking subsystem of bip-rs
(src/bip_peer/src/disk/worker/disk_worker/piece_checker.rs).

The Rust code is shallowly embedded: pure functions become Lean functions,
the mutable PieceCheckerState becomes explicit state passing, fallible code
returns Except, and a Rust panic (Vec.remove out of bounds, Option.expect)
is modelled as a dedicated outcome carrying the panic message.  Machine
integers: block offsets are u32 in the source, so the u32 additions in
merge_piece_messages are taken modulo 2^32 (release-mode wrapping
semantics); all other arithmetic cannot overflow in the modelled range and
is plain Nat.
-/

/-- Modelled from the spec: block descriptor PieceMessage from
message::standard (not under src/): piece_index u32, block_offset u32,
block_length usize, an immutable value type with the three accessors used
by piece_checker.rs. -/
structure PieceMessage where
  piece_index : Nat
  block_offset : Nat
  block_length : Nat
deriving DecidableEq

/-- Truncation to u32, used for the `as u32` casts and the u32 additions in
merge_piece_messages (source lines 240-244). -/
def u32 (n : Nat) : Nat := n % 4294967296

/-- Source lines 239-256.  Merge piece message a with piece message b if
possible.  Note the source passes max_end itself, not max_end - min_start,
as the block_length of the merged message. -/
def merge_piece_messages (message_a message_b : PieceMessage) : Option PieceMessage :=
  let start_a := message_a.block_offset
  let end_a := u32 (start_a + u32 message_a.block_length)
  let start_b := message_b.block_offset
  let end_b := u32 (start_b + u32 message_b.block_length)
  let max_end := max end_a end_b
  if start_b ≥ start_a ∧ start_b ≤ end_a then
    some ⟨message_a.piece_index, start_a, max_end⟩
  else if start_a ≥ start_b ∧ start_a ≤ end_b then
    some ⟨message_a.piece_index, start_b, max_end⟩
  else
    none

/-- The byte b of a piece lies inside the range described by the block
descriptor m. -/
def coversByte (m : PieceMessage) (b : Nat) : Prop :=
  m.block_offset ≤ b ∧ b < m.block_offset + m.block_length

/-- Source lines 150-156: piece verdict, Good or Bad with a piece index. -/
inductive PieceState where
  | Good (index : Nat)
  | Bad (index : Nat)
deriving DecidableEq

/-- Source lines 144-148: tracker state.  The Rust HashSet old_states is a
membership-queried set, modelled as a duplicate-free-by-insertion list; the
Rust HashMap pending_blocks is modelled as an association list (HashMap
iteration order is unspecified; none of the verified properties depend on
the order in which distinct piece entries are visited). -/
structure PieceCheckerState where
  new_states : List PieceState
  old_states : List PieceState
  pending_blocks : List (Nat × List PieceMessage)
deriving DecidableEq

/-- Association-list lookup for pending_blocks. -/
def pb_lookup (k : Nat) : List (Nat × List PieceMessage) → Option (List PieceMessage)
  | [] => none
  | (k', v) :: rest => if k' = k then some v else pb_lookup k rest

/-- HashMap entry(k).or_insert(Vec::new()).push(msg) on an association
list: append msg to the existing entry, or append a fresh entry. -/
def pb_insert (k : Nat) (m : PieceMessage) : List (Nat × List PieceMessage) → List (Nat × List PieceMessage)
  | [] => [(k, [m])]
  | (k', v) :: rest => if k' = k then (k', v ++ [m]) :: rest else (k', v) :: pb_insert k m rest

/-- Source lines 169-171: add a pending piece block to the pending blocks. -/
def add_pending_block (st : PieceCheckerState) (msg : PieceMessage) : PieceCheckerState :=
  ⟨st.new_states, st.old_states, pb_insert msg.piece_index msg st.pending_blocks⟩

/-- HashSet insert: add the verdict unless already present. -/
def insert_state (old : List PieceState) (s : PieceState) : List PieceState :=
  if s ∈ old then old else old ++ [s]

/-- Source lines 175-182: drain new_states in order, hand each verdict to
the callback, insert it into old_states.  The callback is a Rust side
effect; the embedding returns the list of callback arguments in invocation
order as the first component. -/
def run_with_diff (st : PieceCheckerState) : List PieceState × PieceCheckerState :=
  (st.new_states, ⟨[], st.new_states.foldl insert_state st.old_states, st.pending_blocks⟩)

/-- Stable insertion into a list sorted by block_offset (models the stable
Vec::sort_by at source line 213). -/
def insert_by_offset (m : PieceMessage) : List PieceMessage → List PieceMessage
  | [] => [m]
  | x :: xs => if m.block_offset ≤ x.block_offset then m :: x :: xs else x :: insert_by_offset m xs

/-- Stable sort of the pending messages of one piece by block_offset. -/
def sort_by_offset : List PieceMessage → List PieceMessage
  | [] => []
  | x :: xs => insert_by_offset x (sort_by_offset xs)

/-- The panic message of Vec::remove with an out-of-bounds index. -/
def removePanicMsg : String := "removal index should be less than the length of the vector"

/-- Source lines 211-233, one entry of merge_pieces.  The source sorts the
messages, then while messages_len is greater than 1 pops the last element
with messages.remove(messages_len - 1) and then evaluates
messages.remove(messages_len - 1) AGAIN with the stale messages_len, an
index one past the end of the shrunk vector: Vec::remove panics.  So any
entry with two or more pending messages panics on the first iteration, and
an entry with at most one message is returned sorted (unchanged). -/
def merge_entry (msgs : List PieceMessage) : Except String (List PieceMessage) :=
  let sorted := sort_by_offset msgs
  if sorted.length > 1 then Except.error removePanicMsg else Except.ok sorted

/-- Source lines 210-235: merge_pieces over all entries; the first entry
with two or more messages makes the whole pass panic. -/
def merge_pieces : List (Nat × List PieceMessage) → Except String (List (Nat × List PieceMessage))
  | [] => Except.ok []
  | (k, msgs) :: rest =>
    match merge_entry msgs with
    | Except.error e => Except.error e
    | Except.ok msgs' =>
      match merge_pieces rest with
      | Except.error e => Except.error e
      | Except.ok rest' => Except.ok ((k, msgs') :: rest')

/-- Source error kinds used by piece_checker.rs (disk::error is not under
src/; constructors modelled from the spec error list, section 7). -/
inductive TorrentError where
  | existingFileSizeCheck (file_path : String) (expected_size actual_size : Nat)
  | ioError (msg : String)
deriving DecidableEq

/-- Failure of the verification callback: either a returned TorrentError
(the try! path) or a Rust panic with its message. -/
inductive CbFail where
  | torrentErr (e : TorrentError)
  | panicked (msg : String)
deriving DecidableEq

/-- Source lines 193-196: the candidate selection chain of
run_with_whole_pieces: values of pending_blocks, keep entries with exactly
one message whose block_length equals piece_length, drop pieces already in
old_states as Good. -/
def whole_piece_candidates (piece_length : Nat) (old : List PieceState) : List (Nat × List PieceMessage) → List PieceMessage
  | [] => []
  | (_, msgs) :: rest =>
    match msgs with
    | [] => whole_piece_candidates piece_length old rest
    | [m] =>
      if m.block_length = piece_length ∧ PieceState.Good m.piece_index ∉ old
      then m :: whole_piece_candidates piece_length old rest
      else whole_piece_candidates piece_length old rest
    | _ :: _ :: _ => whole_piece_candidates piece_length old rest

/-- Source lines 197-204: run the callback over the candidates in order,
collecting Good/Bad verdicts; the first callback failure aborts the rest,
the verdicts already collected are kept. -/
def process_candidates (cb : PieceMessage → Except CbFail Bool) : List PieceMessage → List PieceState × Option CbFail
  | [] => ([], none)
  | m :: ms =>
    match cb m with
    | Except.error f => ([], some f)
    | Except.ok true =>
      let r := process_candidates cb ms
      (PieceState.Good m.piece_index :: r.1, r.2)
    | Except.ok false =>
      let r := process_candidates cb ms
      (PieceState.Bad m.piece_index :: r.1, r.2)

/-- Outcome of run_with_whole_pieces.  ok: completed, the updated state.
err: a callback returned Err; run_with_whole_pieces mutates self through a
mutable borrow, so the partially updated state survives next to the
returned error.  panicked: the thread panicked (merge_pieces index out of
bounds, or a panic inside the callback); the state is unwound. -/
inductive RunResult where
  | ok (st : PieceCheckerState)
  | err (st : PieceCheckerState) (e : TorrentError)
  | panicked (msg : String)
deriving DecidableEq

/-- Source lines 186-207: run_with_whole_pieces.  Merges the pending
blocks (which panics on any multi-message entry), selects the whole-piece
candidates, runs the callback over them, and appends the verdicts to
new_states.  old_states is untouched and no pending entry is removed. -/
def run_with_whole_pieces (st : PieceCheckerState) (piece_length : Nat)
    (cb : PieceMessage → Except CbFail Bool) : RunResult :=
  match merge_pieces st.pending_blocks with
  | Except.error msg => RunResult.panicked msg
  | Except.ok pb =>
    match process_candidates cb (whole_piece_candidates piece_length st.old_states pb) with
    | (sts, none) => RunResult.ok ⟨st.new_states ++ sts, st.old_states, pb⟩
    | (sts, some (CbFail.torrentErr e)) => RunResult.err ⟨st.new_states ++ sts, st.old_states, pb⟩ e
    | (_, some (CbFail.panicked msg)) => RunResult.panicked msg

/-- The messages actually handed to the callback by one
run_with_whole_pieces pass over this candidate list: everything before the
first failing call, plus the failing call itself. -/
def invoked_messages (cb : PieceMessage → Except CbFail Bool) : List PieceMessage → List PieceMessage
  | [] => []
  | m :: ms =>
    match cb m with
    | Except.error _ => [m]
    | Except.ok _ => m :: invoked_messages cb ms

/-- The messages handed to the callback by run_with_whole_pieces on state
st; when merge_pieces panics the callback is never reached. -/
def invoked_in_pass (st : PieceCheckerState) (piece_length : Nat)
    (cb : PieceMessage → Except CbFail Bool) : List PieceMessage :=
  match merge_pieces st.pending_blocks with
  | Except.error _ => []
  | Except.ok pb => invoked_messages cb (whole_piece_candidates piece_length st.old_states pb)

/-- Modelled from the spec: file descriptor of the InfoDictionary (the
bip_metainfo crate is not under src/ except an example): byte length and
relative path segments. -/
structure FileInfo where
  length : Nat
  paths : List String
deriving DecidableEq

/-- Modelled from the spec: the read-only InfoDictionary consumed by the
checker: piece length, the ordered expected digests (abstracted to Nat
values, one per piece), the optional root directory and the file list. -/
structure InfoDictionary where
  piece_length : Nat
  pieces : List Nat
  directory : Option String
  files : List FileInfo
deriving DecidableEq

/-- Source lines 130-139: join the optional parent directory (default ".")
with the path segments of the file, separated by "/". -/
def build_path (parent_directory : Option String) (file : FileInfo) : String :=
  file.paths.foldl (fun acc item => acc ++ "/" ++ item) (parent_directory.getD ".")

/-- The panic message of the .expect call at source line 70. -/
def expectedHashPanicMsg : String := "bip_peer: Piece Checker Failed To Retrieve Expected Hash"

/-- Source lines 62-74: the verification closure of calculate_diff.  The
external piece reader plus hash primitive are modelled from the spec as
the parameter piece_hash: reading and digesting the on-disk bytes of the
piece either fails with a TorrentError or yields a digest.  The closure
then looks up the expected digest at the piece index and PANICS via
.expect when it is absent; otherwise it compares the two digests. -/
def check_piece (info_dict : InfoDictionary) (piece_hash : PieceMessage → Except TorrentError Nat)
    (message : PieceMessage) : Except CbFail Bool :=
  match piece_hash message with
  | Except.error e => Except.error (CbFail.torrentErr e)
  | Except.ok calculated_hash =>
    match info_dict.pieces.get? message.piece_index with
    | none => Except.error (CbFail.panicked expectedHashPanicMsg)
    | some expected_hash => Except.ok (calculated_hash == expected_hash)

/-- Outcome of calculate_diff: the updated tracker, a returned error (the
tracker is consumed and dropped, Err carries no state), or a thread
panic. -/
inductive DiffResult where
  | ok (st : PieceCheckerState)
  | err (e : TorrentError)
  | panicked (msg : String)
deriving DecidableEq

/-- Source lines 54-77: calculate_diff consumes the checker, runs
run_with_whole_pieces with the hashing closure and returns the updated
state, or the first error via try! (dropping the state), or panics. -/
def calculate_diff (info_dict : InfoDictionary) (piece_hash : PieceMessage → Except TorrentError Nat)
    (st : PieceCheckerState) : DiffResult :=
  match run_with_whole_pieces st info_dict.piece_length (check_piece info_dict piece_hash) with
  | RunResult.ok st' => DiffResult.ok st'
  | RunResult.err _ e => DiffResult.err e
  | RunResult.panicked msg => DiffResult.panicked msg

/-- Modelled from the spec: the file-system abstraction (disk::fs is not
under src/).  Files are a path-to-size association list; open-or-create
and size queries succeed, a write on a path listed in fail_writes fails
(the failure oracle makes the swallowed-error behavior observable). -/
structure SimFS where
  sizes : List (String × Nat)
  fail_writes : List String
deriving DecidableEq

/-- Association-list lookup for SimFS sizes. -/
def fs_lookup (p : String) : List (String × Nat) → Option Nat
  | [] => none
  | (q, v) :: rest => if q = p then some v else fs_lookup p rest

/-- Association-list update (insert if absent) for SimFS sizes. -/
def fs_update (p : String) (v : Nat) : List (String × Nat) → List (String × Nat)
  | [] => [(p, v)]
  | (q, w) :: rest => if q = p then (q, v) :: rest else (q, w) :: fs_update p v rest

/-- Modelled from the spec: open-or-create.  An absent file is created
with size zero; an existing file is untouched. -/
def open_file (fs : SimFS) (p : String) : SimFS :=
  if (fs_lookup p fs.sizes).isSome then fs else ⟨fs.sizes ++ [(p, 0)], fs.fail_writes⟩

/-- Modelled from the spec: size query of an opened file. -/
def file_size (fs : SimFS) (p : String) : Nat :=
  (fs_lookup p fs.sizes).getD 0

/-- Modelled from the spec: write len bytes at the given offset,
sparse-extending the file.  Returns the new file system and a success
flag standing for the io Result; a failed write changes nothing. -/
def write_file (fs : SimFS) (p : String) (offset len : Nat) : SimFS × Bool :=
  if p ∈ fs.fail_writes then (fs, false)
  else (⟨fs_update p (max (file_size fs p) (offset + len)) fs.sizes, fs.fail_writes⟩, true)

/-- Source lines 102-123, the body of the validate_files_sizes loop for
one file: open (creating if absent), query the size, and either leave the
file alone, zero-fill it via a single byte written at expected_size - 1
(DISCARDING the io Result of write_file, as the source does at line 113),
or fail with ExistingFileSizeCheck. -/
def validate_file_step (fs : SimFS) (file_path : String) (expected_size : Nat) : Except TorrentError SimFS :=
  let fs1 := open_file fs file_path
  let actual_size := file_size fs1 file_path
  if actual_size ≠ expected_size ∧ actual_size = 0 then
    Except.ok (write_file fs1 file_path (expected_size - 1) 1).1
  else if actual_size ≠ expected_size then
    Except.error (TorrentError.existingFileSizeCheck file_path expected_size actual_size)
  else
    Except.ok fs1

/-- The validate_files_sizes loop over the remaining files. -/
def validate_files_aux (dir : Option String) (fs : SimFS) : List FileInfo → Except TorrentError SimFS
  | [] => Except.ok fs
  | f :: rest =>
    match validate_file_step fs (build_path dir f) f.length with
    | Except.error e => Except.error e
    | Except.ok fs' => validate_files_aux dir fs' rest

/-- Source lines 97-127: validate the sizes of all files of the torrent,
block-allocating absent or empty ones. -/
def validate_files_sizes (fs : SimFS) (info_dict : InfoDictionary) : Except TorrentError SimFS :=
  validate_files_aux info_dict.directory fs info_dict.files

/-- Source lines 160-166: PieceCheckerState::new, the empty tracker. -/
def emptyCheckerState : PieceCheckerState := ⟨[], [], []⟩

/-- Source lines 83-89: fill_checker_state adds one pending block per
piece index, offset 0, length the nominal piece length. -/
def fill_checker_state (info_dict : InfoDictionary) (st : PieceCheckerState) : PieceCheckerState :=
  (List.range info_dict.pieces.length).foldl
    (fun s i => add_pending_block s ⟨i, 0, info_dict.piece_length⟩) st

/-- The checker: the owned file system handle and the tracker (the
borrowed info dictionary is passed to the operations explicitly). -/
structure PieceChecker where
  fs : SimFS
  checker_state : PieceCheckerState
deriving DecidableEq

/-- Source lines 34-41: PieceChecker::new validates the file sizes and
only then seeds the fresh tracker via fill_checker_state; a validation
error is returned and nothing is seeded. -/
def PieceChecker.new (fs : SimFS) (info_dict : InfoDictionary) : Except TorrentError PieceChecker :=
  match validate_files_sizes fs info_dict with
  | Except.error e => Except.error e
  | Except.ok fs' => Except.ok ⟨fs', fill_checker_state info_dict emptyCheckerState⟩

/-- One operation of the tracker life cycle, for the temporal claim about
confirmed-good pieces. -/
inductive TrackerOp where
  | add (m : PieceMessage)
  | runWhole (piece_length : Nat) (cb : PieceMessage → Except CbFail Bool)
  | runDiff

/-- Run a sequence of tracker operations from a state and collect every
message handed to a verification callback by any run_with_whole_pieces
pass of the sequence.  A panic kills the worker thread, so nothing runs
after it. -/
def exec_ops (st : PieceCheckerState) : List TrackerOp → List PieceMessage
  | [] => []
  | TrackerOp.add m :: ops => exec_ops (add_pending_block st m) ops
  | TrackerOp.runDiff :: ops => exec_ops (run_with_diff st).2 ops
  | TrackerOp.runWhole len cb :: ops =>
    match run_with_whole_pieces st len cb with
    | RunResult.ok st' => invoked_in_pass st len cb ++ exec_ops st' ops
    | RunResult.err st' _ => invoked_in_pass st len cb ++ exec_ops st' ops
    | RunResult.panicked _ => invoked_in_pass st len cb

instance {ε : Type _} {α : Type _} [DecidableEq ε] [DecidableEq α] : DecidableEq (Except ε α) :=
  fun x y =>
  match x, y with
  | Except.ok a, Except.ok b =>
    if h : a = b then isTrue (by rw [h]) else isFalse (by intro he; injection he; exact h (by assumption))
  | Except.error a, Except.error b =>
    if h : a = b then isTrue (by rw [h]) else isFalse (by intro he; injection he; exact h (by assumption))
  | Except.ok _, Except.error _ => isFalse (by intro he; cases he)
  | Except.error _, Except.ok _ => isFalse (by intro he; cases he)

instance (m : PieceMessage) (b : Nat) : Decidable (coversByte m b) :=
  inferInstanceAs (Decidable (m.block_offset ≤ b ∧ b < m.block_offset + m.block_length))

/-- A verification callback that reports every piece as good. -/
def cbTrue : PieceMessage → Except CbFail Bool := fun _ => Except.ok true

/-- A file system holding no files in which the write on path d/f fails. -/
def c5FS : SimFS := ⟨[], ["d/f"]⟩

/-- A dictionary with directory d and a single 5-byte file f. -/
def c5Dict : InfoDictionary := ⟨4, [], some "d", [⟨5, ["f"]⟩]⟩

/-- A dictionary with one expected digest but two pieces pending. -/
def c6Dict : InfoDictionary := ⟨4, [7], none, []⟩

/-- A piece reader plus hash model whose digest is always 7. -/
def c6Hash : PieceMessage → Except TorrentError Nat := fun _ => Except.ok 7

/-- A tracker with full-length pending blocks for piece indexes 0 and 1. -/
def c6St : PieceCheckerState := ⟨[], [], [(0, [⟨0, 0, 4⟩]), (1, [⟨1, 0, 4⟩])]⟩

/-- A dictionary with no expected digests at all. -/
def c6wDict : InfoDictionary := ⟨4, [], none, []⟩

/-- A tracker with one full-length pending block for piece index 0. -/
def c6wSt : PieceCheckerState := ⟨[], [], [(0, [⟨0, 0, 4⟩])]⟩

/-- An empty, fault-free file system. -/
def c9FS : SimFS := ⟨[], []⟩

/-- A dictionary with two pieces of length 4 and no files. -/
def c9Dict : InfoDictionary := ⟨4, [7, 8], none, []⟩

/-- A fault-free file system holding one 3-byte file d/g. -/
def c4FS : SimFS := ⟨[("d/g", 3)], []⟩

/-- C1.  The merge condition of merge_piece_messages is the claimed one,
but the merged descriptor does NOT cover [min start, max end): the source
passes max_end itself as the block length, so merging [2,4) and [4,6)
yields offset 2 with length 6 instead of the claimed length
max(4,6) - min(2,4) = 4.  The claim is the documented intent (the merged
message is supposed to describe the union of the two ranges, and the
whole-piece filter of run_with_whole_pieces relies on that); the code is
off by min_start. -/
theorem c1_merge_length_eval :
    merge_piece_messages ⟨0, 2, 2⟩ ⟨0, 4, 2⟩ = some ⟨0, 2, 6⟩ ∧
    (6 : Nat) ≠ max (2 + 2) (4 + 2) - min 2 4 := by decide

/-- C2.  A single pending block with offset 3 and length 6 for a piece of
length 6 passes the whole-piece filter (the filter checks only that there
is exactly one descriptor whose block_length equals piece_length, never
that its offset is 0), so the verify callback IS invoked for piece 0 even
though byte 0 of the piece is not covered by the only block ever added:
partial coverage does trigger verification, refuting the claim. -/
theorem c2_partial_coverage_eval :
    run_with_whole_pieces (add_pending_block emptyCheckerState ⟨0, 3, 6⟩) 6 cbTrue
      = RunResult.ok ⟨[PieceState.Good 0], [], [(0, [⟨0, 3, 6⟩])]⟩ ∧
    invoked_in_pass (add_pending_block emptyCheckerState ⟨0, 3, 6⟩) 6 cbTrue = [⟨0, 3, 6⟩] ∧
    ¬ coversByte ⟨0, 3, 6⟩ 0 := by decide

/-- C5.  The zero-fill write of validate_files_sizes fails (the path is in
the fail set and the returned success flag is false), yet the pass
completes with Ok and the file is left at size 0 instead of the expected
5: the io Result of write_file is discarded at source line 113, so the
failure is swallowed, refuting the claim that it propagates. -/
theorem c5_write_error_swallowed_eval :
    (write_file (open_file c5FS "d/f") "d/f" 4 1).2 = false ∧
    validate_files_sizes c5FS c5Dict = Except.ok ⟨[("d/f", 0)], ["d/f"]⟩ ∧
    file_size (⟨[("d/f", 0)], ["d/f"]⟩ : SimFS) "d/f" ≠ 5 := by decide

/-- C6 counterexample.  With one expected digest and pieces 0 and 1 both
selected for verification, piece 0 is hashed and found good, then the
digest lookup for piece 1 comes back empty and the .expect at source line
70 PANICS: calculate_diff ends in the panicked outcome (an unwinding
thread abort), not in an Ok tracker and not in a returned error value, and
the Good(0) verdict collected earlier is lost with the dropped tracker —
refuting the claim that a missing digest is returned as an error with the
collected verdicts preserved in a returned-to-caller state. -/
theorem c6_missing_digest_panics_cx :
    calculate_diff c6Dict c6Hash c6St = DiffResult.panicked expectedHashPanicMsg ∧
    c6Dict.pieces.get? 1 = none := by decide

/-- C8 counterexample.  Piece 0 is verified (the callback is invoked on
its merged descriptor and Good(0) is pushed to new_states), yet after the
pass its pending_blocks entry is still present and non-empty: the pass
never removes or empties pending entries, refuting the claim. -/
theorem c8_pending_entry_remains_cx :
    run_with_whole_pieces (add_pending_block emptyCheckerState ⟨0, 0, 4⟩) 4 cbTrue
      = RunResult.ok ⟨[PieceState.Good 0], [], [(0, [⟨0, 0, 4⟩])]⟩ ∧
    invoked_in_pass (add_pending_block emptyCheckerState ⟨0, 0, 4⟩) 4 cbTrue
      = [⟨0, 0, 4⟩] := by decide

/-- C10.  merge_piece_messages never inspects the piece indexes: replacing
them by arbitrary i and j changes the result only by stamping i (the index
of the first argument) on the merged descriptor, and whenever a merge
happens the result carries the piece index of the first argument. -/
theorem c10_merge_ignores_piece_index (a b : PieceMessage) (i j : Nat) :
    merge_piece_messages ⟨i, a.block_offset, a.block_length⟩ ⟨j, b.block_offset, b.block_length⟩
      = (merge_piece_messages a b).map (fun m => ⟨i, m.block_offset, m.block_length⟩) ∧
    ∀ m, merge_piece_messages a b = some m → m.piece_index = a.piece_index := by
  obtain ⟨ai, ao, al⟩ := a
  obtain ⟨bi, bo, bl⟩ := b
  constructor
  · simp only [merge_piece_messages]
    split_ifs <;> rfl
  · intro m h
    simp only [merge_piece_messages] at h
    split_ifs at h with h1 h2
    all_goals (injection h with h'; subst h'; rfl)

/-- C10 witness: merging two overlapping blocks with distinct piece
indexes 5 and 9 succeeds and the result carries the first index. -/
theorem c10_merge_ignores_piece_index_witness :
    merge_piece_messages ⟨5, 0, 4⟩ ⟨9, 2, 4⟩ = some ⟨5, 0, 6⟩ ∧
    (⟨5, 0, 6⟩ : PieceMessage).piece_index = 5 :=
  ⟨by decide, (c10_merge_ignores_piece_index ⟨5, 0, 4⟩ ⟨9, 2, 4⟩ 5 9).2 ⟨5, 0, 6⟩ (by decide)⟩

theorem mem_insert_state (old : List PieceState) (s t : PieceState)
    (h : t ∈ old ∨ t = s) : t ∈ insert_state old s := by
  unfold insert_state
  split_ifs with hs
  · rcases h with h | rfl
    · exact h
    · exact hs
  · rcases h with h | rfl
    · exact List.mem_append_left _ h
    · exact List.mem_append_right _ (List.mem_singleton.mpr rfl)

theorem mem_foldl_insert_state (l : List PieceState) (old : List PieceState) (s : PieceState)
    (h : s ∈ l ∨ s ∈ old) : s ∈ l.foldl insert_state old := by
  induction l generalizing old with
  | nil =>
    rcases h with h | h
    · cases h
    · exact h
  | cons x xs ih =>
    simp only [List.foldl_cons]
    apply ih
    rcases h with h | h
    · rcases List.mem_cons.mp h with rfl | h
      · exact Or.inr (mem_insert_state _ _ _ (Or.inr rfl))
      · exact Or.inl h
    · exact Or.inr (mem_insert_state _ _ _ (Or.inl h))

/-- C7.  run_with_diff hands exactly the verdicts of new_states, in
insertion order, to the callback, empties new_states, inserts every
drained verdict (Good or Bad alike) into old_states, and on an empty
new_states it makes no callback invocation and returns the state
unchanged. -/
theorem c7_run_with_diff_drains (st : PieceCheckerState) :
    (run_with_diff st).1 = st.new_states ∧
    (run_with_diff st).2.new_states = [] ∧
    (∀ s, s ∈ st.new_states → s ∈ (run_with_diff st).2.old_states) ∧
    (st.new_states = [] → run_with_diff st = ([], st)) := by
  refine ⟨rfl, rfl, ?_, ?_⟩
  · intro s hs
    exact mem_foldl_insert_state _ _ _ (Or.inl hs)
  · intro h
    obtain ⟨ns, os, pb⟩ := st
    simp only at h
    subst h
    rfl

/-- C7 witness: a two-verdict drain reports Good 0 into old_states, and an
empty drain returns the state unchanged with no invocation. -/
theorem c7_run_with_diff_drains_witness :
    PieceState.Good 0 ∈
      (run_with_diff ⟨[PieceState.Good 0, PieceState.Bad 1], [PieceState.Bad 9], []⟩).2.old_states ∧
    run_with_diff ⟨[], [PieceState.Bad 9], []⟩ = ([], ⟨[], [PieceState.Bad 9], []⟩) :=
  ⟨(c7_run_with_diff_drains ⟨[PieceState.Good 0, PieceState.Bad 1], [PieceState.Bad 9], []⟩).2.2.1
      (PieceState.Good 0) (by decide),
   (c7_run_with_diff_drains ⟨[], [PieceState.Bad 9], []⟩).2.2.2 rfl⟩

theorem mem_of_mem_invoked (cb : PieceMessage → Except CbFail Bool)
    (l : List PieceMessage) (m : PieceMessage) (h : m ∈ invoked_messages cb l) : m ∈ l := by
  induction l with
  | nil => cases h
  | cons x xs ih =>
    simp only [invoked_messages] at h
    cases hcb : cb x with
    | error f =>
      rw [hcb] at h
      simp only [List.mem_singleton] at h
      exact h ▸ List.mem_cons_self x xs
    | ok b =>
      rw [hcb] at h
      rcases List.mem_cons.mp h with rfl | h
      · exact List.mem_cons_self m xs
      · exact List.mem_cons_of_mem _ (ih h)

theorem mem_whole_piece_candidates (len : Nat) (old : List PieceState)
    (pb : List (Nat × List PieceMessage)) (m : PieceMessage)
    (h : m ∈ whole_piece_candidates len old pb) :
    (∃ k, (k, [m]) ∈ pb) ∧ m.block_length = len ∧ PieceState.Good m.piece_index ∉ old := by
  induction pb with
  | nil => cases h
  | cons kv rest ih =>
    obtain ⟨k, msgs⟩ := kv
    rcases msgs with _ | ⟨m1, _ | ⟨m2, ms⟩⟩
    · simp only [whole_piece_candidates] at h
      obtain ⟨⟨k', hk⟩, hl, ho⟩ := ih h
      exact ⟨⟨k', List.mem_cons_of_mem _ hk⟩, hl, ho⟩
    · simp only [whole_piece_candidates] at h
      split_ifs at h with hc
      · rcases List.mem_cons.mp h with rfl | h'
        · exact ⟨⟨k, List.mem_cons_self _ _⟩, hc.1, hc.2⟩
        · obtain ⟨⟨k', hk⟩, hl, ho⟩ := ih h'
          exact ⟨⟨k', List.mem_cons_of_mem _ hk⟩, hl, ho⟩
      · obtain ⟨⟨k', hk⟩, hl, ho⟩ := ih h
        exact ⟨⟨k', List.mem_cons_of_mem _ hk⟩, hl, ho⟩
    · simp only [whole_piece_candidates] at h
      obtain ⟨⟨k', hk⟩, hl, ho⟩ := ih h
      exact ⟨⟨k', List.mem_cons_of_mem _ hk⟩, hl, ho⟩

theorem good_not_invoked (st : PieceCheckerState) (len : Nat)
    (cb : PieceMessage → Except CbFail Bool) (i : Nat)
    (h : PieceState.Good i ∈ st.old_states) :
    i ∉ (invoked_in_pass st len cb).map PieceMessage.piece_index := by
  intro hmem
  rcases List.mem_map.mp hmem with ⟨m, hm, hmi⟩
  unfold invoked_in_pass at hm
  cases hmp : merge_pieces st.pending_blocks with
  | error e =>
    rw [hmp] at hm
    cases hm
  | ok pb =>
    rw [hmp] at hm
    have h1 := mem_of_mem_invoked _ _ _ hm
    have h2 := (mem_whole_piece_candidates _ _ _ _ h1).2.2
    exact h2 (hmi ▸ h)

theorem run_whole_panicked_of_merge (st : PieceCheckerState) (len : Nat)
    (cb : PieceMessage → Except CbFail Bool) (msg : String)
    (hmp : merge_pieces st.pending_blocks = Except.error msg) :
    run_with_whole_pieces st len cb = RunResult.panicked msg := by
  unfold run_with_whole_pieces
  rw [hmp]

theorem run_whole_of_merge_ok (st : PieceCheckerState) (len : Nat)
    (cb : PieceMessage → Except CbFail Bool) (pb : List (Nat × List PieceMessage))
    (hmp : merge_pieces st.pending_blocks = Except.ok pb) :
    run_with_whole_pieces st len cb =
      match process_candidates cb (whole_piece_candidates len st.old_states pb) with
      | (sts, none) => RunResult.ok ⟨st.new_states ++ sts, st.old_states, pb⟩
      | (sts, some (CbFail.torrentErr e)) => RunResult.err ⟨st.new_states ++ sts, st.old_states, pb⟩ e
      | (_, some (CbFail.panicked msg)) => RunResult.panicked msg := by
  unfold run_with_whole_pieces
  rw [hmp]

theorem run_whole_old_states (st : PieceCheckerState) (len : Nat)
    (cb : PieceMessage → Except CbFail Bool) :
    (∀ st', run_with_whole_pieces st len cb = RunResult.ok st' → st'.old_states = st.old_states) ∧
    (∀ st' e, run_with_whole_pieces st len cb = RunResult.err st' e → st'.old_states = st.old_states) := by
  cases hmp : merge_pieces st.pending_blocks with
  | error msg =>
    have hr := run_whole_panicked_of_merge st len cb msg hmp
    refine ⟨fun st' h => ?_, fun st' e h => ?_⟩ <;>
      (rw [hr] at h; exact RunResult.noConfusion h)
  | ok pb =>
    have hr := run_whole_of_merge_ok st len cb pb hmp
    rcases hpc : process_candidates cb (whole_piece_candidates len st.old_states pb) with ⟨sts, err⟩
    rw [hpc] at hr
    cases err with
    | none =>
      refine ⟨fun st' h => ?_, fun st' e h => ?_⟩
      · rw [hr] at h
        injection h with h2
        rw [← h2]
      · rw [hr] at h
        exact RunResult.noConfusion h
    | some f =>
      cases f with
      | torrentErr e0 =>
        refine ⟨fun st' h => ?_, fun st' e h => ?_⟩
        · rw [hr] at h
          exact RunResult.noConfusion h
        · rw [hr] at h
          injection h with h2 h3
          rw [← h2]
      | panicked msg =>
        refine ⟨fun st' h => ?_, fun st' e h => ?_⟩ <;>
          (rw [hr] at h; exact RunResult.noConfusion h)

/-- C3.  Once Good(i) is in old_states it stays there under any sequence
of tracker operations, and no later run_with_whole_pieces pass ever hands
a message with piece index i to its verification callback, regardless of
how many further add_pending_block calls (for piece i or any other piece)
and diff drains happen in between. -/
theorem c3_good_never_reverified (i : Nat) (ops : List TrackerOp) (st : PieceCheckerState)
    (h : PieceState.Good i ∈ st.old_states) :
    i ∉ (exec_ops st ops).map PieceMessage.piece_index := by
  induction ops generalizing st with
  | nil =>
    intro hc
    cases hc
  | cons op ops ih =>
    cases op with
    | add m =>
      exact ih (add_pending_block st m) h
    | runDiff =>
      exact ih (run_with_diff st).2 (mem_foldl_insert_state _ _ _ (Or.inr h))
    | runWhole len cb =>
      simp only [exec_ops]
      cases hr : run_with_whole_pieces st len cb with
      | ok st' =>
        simp only [List.map_append, List.mem_append]
        intro hc
        rcases hc with hc | hc
        · exact good_not_invoked st len cb i h hc
        · exact ih st' ((run_whole_old_states st len cb).1 st' hr ▸ h) hc
      | err st' e =>
        simp only [List.map_append, List.mem_append]
        intro hc
        rcases hc with hc | hc
        · exact good_not_invoked st len cb i h hc
        · exact ih st' ((run_whole_old_states st len cb).2 st' e hr ▸ h) hc
      | panicked msg =>
        exact good_not_invoked st len cb i h

/-- C3 witness: with Good(1) already confirmed, adding a further
full-length block for piece 1 and running a pass invokes the verify
callback for nothing. -/
theorem c3_good_never_reverified_witness :
    PieceState.Good 1 ∈ (⟨[], [PieceState.Good 1], []⟩ : PieceCheckerState).old_states ∧
    1 ∉ (exec_ops ⟨[], [PieceState.Good 1], []⟩
          [TrackerOp.add ⟨1, 0, 4⟩, TrackerOp.runWhole 4 cbTrue]).map PieceMessage.piece_index :=
  ⟨by decide,
   c3_good_never_reverified 1 [TrackerOp.add ⟨1, 0, 4⟩, TrackerOp.runWhole 4 cbTrue]
     ⟨[], [PieceState.Good 1], []⟩ (by decide)⟩

/-- C8 (amended).  A completed run_with_whole_pieces pass does not remove
or empty the pending entry of a verified piece: every message handed to
the verify callback still has its whole (merged, single-descriptor) entry
present in pending_blocks afterwards; only the verdict moves into
new_states. -/
theorem c8_verified_entry_retained (st : PieceCheckerState) (len : Nat)
    (cb : PieceMessage → Except CbFail Bool) (st' : PieceCheckerState) (m : PieceMessage)
    (hrun : run_with_whole_pieces st len cb = RunResult.ok st')
    (hm : m ∈ invoked_in_pass st len cb) :
    ∃ k, (k, [m]) ∈ st'.pending_blocks := by
  cases hmp : merge_pieces st.pending_blocks with
  | error msg =>
    unfold invoked_in_pass at hm
    rw [hmp] at hm
    have hm' : m ∈ ([] : List PieceMessage) := hm
    cases hm'
  | ok pb =>
    have hm' : m ∈ invoked_messages cb (whole_piece_candidates len st.old_states pb) := by
      unfold invoked_in_pass at hm
      rw [hmp] at hm
      exact hm
    have hr := run_whole_of_merge_ok st len cb pb hmp
    have h1 := mem_of_mem_invoked _ _ _ hm'
    obtain ⟨⟨k, hk⟩, -, -⟩ := mem_whole_piece_candidates _ _ _ _ h1
    rcases hpc : process_candidates cb (whole_piece_candidates len st.old_states pb) with ⟨sts, err⟩
    rw [hpc] at hr
    cases err with
    | none =>
      rw [hr] at hrun
      injection hrun with h2
      rw [← h2]
      exact ⟨k, hk⟩
    | some f =>
      cases f with
      | torrentErr e =>
        rw [hr] at hrun
        exact RunResult.noConfusion hrun
      | panicked msg =>
        rw [hr] at hrun
        exact RunResult.noConfusion hrun

/-- C8 witness: after the pass of the counterexample input, the verified
message still sits in its pending entry. -/
theorem c8_verified_entry_retained_witness :
    ∃ k, (k, [(⟨0, 0, 4⟩ : PieceMessage)]) ∈
      (⟨[PieceState.Good 0], [], [(0, [⟨0, 0, 4⟩])]⟩ : PieceCheckerState).pending_blocks :=
  c8_verified_entry_retained (add_pending_block emptyCheckerState ⟨0, 0, 4⟩) 4 cbTrue
    ⟨[PieceState.Good 0], [], [(0, [⟨0, 0, 4⟩])]⟩ ⟨0, 0, 4⟩ (by decide) (by decide)

theorem process_candidates_first_fail (cb : PieceMessage → Except CbFail Bool)
    (pre : List PieceMessage) (m : PieceMessage) (rest : List PieceMessage) (f : CbFail)
    (hpre : ∀ x ∈ pre, ∃ b, cb x = Except.ok b) (hm : cb m = Except.error f) :
    (process_candidates cb (pre ++ m :: rest)).2 = some f := by
  induction pre with
  | nil =>
    simp only [List.nil_append, process_candidates]
    rw [hm]
  | cons x xs ih =>
    obtain ⟨b, hb⟩ := hpre x (List.mem_cons_self x xs)
    have ih' := ih (fun y hy => hpre y (List.mem_cons_of_mem _ hy))
    simp only [List.cons_append, process_candidates]
    rw [hb]
    cases b <;> exact ih'

/-- C6 (amended).  With the whole-piece candidates splitting as
pre ++ m :: rest and every candidate of pre verifying without failure:
if reading or hashing piece m fails with a TorrentError, calculate_diff
returns exactly that first error as an error value (the consumed tracker,
including the verdicts already collected for pre, is dropped, not
returned); if reading succeeds but the expected digest for the piece index
of m is absent, calculate_diff PANICS with the .expect message of source
line 70 instead of returning an error value. -/
theorem c6_first_error_or_panic (info_dict : InfoDictionary)
    (piece_hash : PieceMessage → Except TorrentError Nat) (st : PieceCheckerState)
    (pb : List (Nat × List PieceMessage)) (pre rest : List PieceMessage) (m : PieceMessage)
    (hpb : merge_pieces st.pending_blocks = Except.ok pb)
    (hc : whole_piece_candidates info_dict.piece_length st.old_states pb = pre ++ m :: rest)
    (hpre : ∀ x ∈ pre, ∃ b, check_piece info_dict piece_hash x = Except.ok b) :
    (∀ e, piece_hash m = Except.error e →
      calculate_diff info_dict piece_hash st = DiffResult.err e) ∧
    (∀ h, piece_hash m = Except.ok h → info_dict.pieces.get? m.piece_index = none →
      calculate_diff info_dict piece_hash st = DiffResult.panicked expectedHashPanicMsg) := by
  constructor
  · intro e he
    have hcp : check_piece info_dict piece_hash m = Except.error (CbFail.torrentErr e) := by
      unfold check_piece
      rw [he]
    have h2 := process_candidates_first_fail (check_piece info_dict piece_hash) pre m rest _ hpre hcp
    have hr := run_whole_of_merge_ok st info_dict.piece_length (check_piece info_dict piece_hash) pb hpb
    rw [hc] at hr
    rcases hpc : process_candidates (check_piece info_dict piece_hash) (pre ++ m :: rest) with ⟨sts, err⟩
    rw [hpc] at hr h2
    have h3 : err = some (CbFail.torrentErr e) := h2
    subst h3
    unfold calculate_diff
    rw [hr]
  · intro hsh hph hget
    have hcp : check_piece info_dict piece_hash m
        = Except.error (CbFail.panicked expectedHashPanicMsg) := by
      unfold check_piece
      rw [hph, hget]
    have h2 := process_candidates_first_fail (check_piece info_dict piece_hash) pre m rest _ hpre hcp
    have hr := run_whole_of_merge_ok st info_dict.piece_length (check_piece info_dict piece_hash) pb hpb
    rw [hc] at hr
    rcases hpc : process_candidates (check_piece info_dict piece_hash) (pre ++ m :: rest) with ⟨sts, err⟩
    rw [hpc] at hr h2
    have h3 : err = some (CbFail.panicked expectedHashPanicMsg) := h2
    subst h3
    unfold calculate_diff
    rw [hr]

/-- C6 witness: one full-length candidate for piece 0, a dictionary with
no digests, a reader that hashes successfully: calculate_diff panics. -/
theorem c6_first_error_or_panic_witness :
    calculate_diff c6wDict c6Hash c6wSt = DiffResult.panicked expectedHashPanicMsg :=
  (c6_first_error_or_panic c6wDict c6Hash c6wSt [(0, [⟨0, 0, 4⟩])] [] [] ⟨0, 0, 4⟩
    (by decide) (by decide) (by intro x hx; cases hx)).2 7 rfl (by decide)

theorem fs_lookup_append_zero (q p : String) (l : List (String × Nat)) :
    (fs_lookup q (l ++ [(p, 0)])).getD 0 = (fs_lookup q l).getD 0 := by
  induction l with
  | nil =>
    simp only [List.nil_append, fs_lookup]
    split_ifs <;> rfl
  | cons x xs ih =>
    obtain ⟨a, b⟩ := x
    simp only [List.cons_append, fs_lookup]
    split_ifs with ha
    · rfl
    · exact ih

theorem file_size_open_file (fs : SimFS) (p q : String) :
    file_size (open_file fs p) q = file_size fs q := by
  unfold open_file
  split_ifs with h
  · rfl
  · unfold file_size
    exact fs_lookup_append_zero q p fs.sizes

theorem open_file_fail_writes (fs : SimFS) (p : String) :
    (open_file fs p).fail_writes = fs.fail_writes := by
  unfold open_file
  split_ifs <;> rfl

theorem fs_lookup_fs_update_self (p : String) (v : Nat) (l : List (String × Nat)) :
    fs_lookup p (fs_update p v l) = some v := by
  induction l with
  | nil => simp [fs_update, fs_lookup]
  | cons x xs ih =>
    obtain ⟨q, w⟩ := x
    by_cases hq : q = p
    · subst hq
      simp [fs_update, fs_lookup]
    · simp [fs_update, fs_lookup, hq, ih]

theorem fs_lookup_fs_update_other (p q : String) (v : Nat) (l : List (String × Nat))
    (hq : q ≠ p) : fs_lookup q (fs_update p v l) = fs_lookup q l := by
  induction l with
  | nil =>
    simp only [fs_update, fs_lookup]
    rw [if_neg (Ne.symm hq)]
  | cons x xs ih =>
    obtain ⟨a, b⟩ := x
    by_cases ha : a = p
    · subst ha
      simp [fs_update, fs_lookup, Ne.symm hq]
    · simp [fs_update, fs_lookup, ha, ih]

theorem write_file_size_self (fs : SimFS) (p : String) (off len : Nat)
    (h : p ∉ fs.fail_writes) :
    file_size (write_file fs p off len).1 p = max (file_size fs p) (off + len) := by
  unfold write_file
  rw [if_neg h]
  unfold file_size
  simp [fs_lookup_fs_update_self]

theorem write_file_size_other (fs : SimFS) (p : String) (off len : Nat) (q : String)
    (hq : q ≠ p) : file_size (write_file fs p off len).1 q = file_size fs q := by
  unfold write_file
  split_ifs with h
  · rfl
  · unfold file_size
    simp [fs_lookup_fs_update_other p q _ _ hq]

/-- C4.  For one file processed by the validation pass (the body of the
validate_files_sizes loop), with a file system whose write on that path
succeeds: a size match leaves every file size unchanged; an actual size of
zero differing from the expected size ends with the file at exactly the
expected size (via the single zero byte written at expected_size - 1) and
every other file unchanged; a nonzero mismatched size fails with
ExistingFileSizeCheck carrying the path, the expected and the actual size,
modifying nothing (the step returns only the error). -/
theorem c4_validate_file_cases (fs : SimFS) (file_path : String) (expected_size : Nat)
    (hw : file_path ∉ fs.fail_writes) :
    (file_size fs file_path = expected_size →
      ∃ fs', validate_file_step fs file_path expected_size = Except.ok fs' ∧
        ∀ p, file_size fs' p = file_size fs p) ∧
    (file_size fs file_path = 0 → expected_size ≠ 0 →
      ∃ fs', validate_file_step fs file_path expected_size = Except.ok fs' ∧
        file_size fs' file_path = expected_size ∧
        ∀ p, p ≠ file_path → file_size fs' p = file_size fs p) ∧
    (file_size fs file_path ≠ 0 → file_size fs file_path ≠ expected_size →
      validate_file_step fs file_path expected_size
        = Except.error (TorrentError.existingFileSizeCheck file_path expected_size
            (file_size fs file_path))) := by
  have hop : ∀ q, file_size (open_file fs file_path) q = file_size fs q :=
    fun q => file_size_open_file fs file_path q
  have hwf : file_path ∉ (open_file fs file_path).fail_writes := by
    rw [open_file_fail_writes]
    exact hw
  simp only [validate_file_step]
  rw [hop file_path]
  split_ifs with h1 h2
  · refine ⟨?_, ?_, ?_⟩
    · intro h
      exact absurd h h1.1
    · intro h0 hne
      refine ⟨(write_file (open_file fs file_path) file_path (expected_size - 1) 1).1,
        rfl, ?_, ?_⟩
      · rw [write_file_size_self _ _ _ _ hwf, hop, h0]
        omega
      · intro p hp
        rw [write_file_size_other _ _ _ _ _ hp, hop]
    · intro hne0 _
      exact absurd h1.2 hne0
  · refine ⟨?_, ?_, ?_⟩
    · intro h
      exact absurd h h2
    · intro h0 hne
      have hcontra : file_size fs file_path ≠ expected_size ∧ file_size fs file_path = 0 := by
        constructor
        · rw [h0]
          exact fun hh => hne hh.symm
        · exact h0
      exact absurd hcontra h1
    · intro _ _
      rfl
  · have heq : file_size fs file_path = expected_size := not_not.mp h2
    refine ⟨?_, ?_, ?_⟩
    · intro _
      exact ⟨open_file fs file_path, rfl, hop⟩
    · intro h0 hne
      omega
    · intro hne0 hneq
      exact absurd heq hneq

/-- C4 witness: validating an absent 5-byte file on a fault-free file
system allocates it to size 5 and leaves the other file alone. -/
theorem c4_validate_file_cases_witness :
    ∃ fs', validate_file_step c4FS "d/f" 5 = Except.ok fs' ∧
      file_size fs' "d/f" = 5 ∧ ∀ p, p ≠ "d/f" → file_size fs' p = file_size c4FS p :=
  (c4_validate_file_cases c4FS "d/f" 5 (by decide)).2.1 (by decide) (by decide)

theorem pb_insert_lookup_none (k : Nat) (m : PieceMessage)
    (pb : List (Nat × List PieceMessage)) (h : pb_lookup k pb = none) :
    pb_insert k m pb = pb ++ [(k, [m])] := by
  induction pb with
  | nil => rfl
  | cons kv rest ih =>
    obtain ⟨k', v⟩ := kv
    simp only [pb_lookup] at h
    split_ifs at h with hk
    simp only [pb_insert, List.cons_append]
    rw [if_neg hk, ih h]

theorem pb_lookup_append_none (k : Nat) (pb : List (Nat × List PieceMessage))
    (k' : Nat) (v : List PieceMessage) (h : pb_lookup k pb = none) (hk : k' ≠ k) :
    pb_lookup k (pb ++ [(k', v)]) = none := by
  induction pb with
  | nil =>
    simp only [List.nil_append, pb_lookup]
    rw [if_neg hk]
  | cons kv rest ih =>
    obtain ⟨a, b⟩ := kv
    simp only [pb_lookup, List.cons_append] at h ⊢
    split_ifs at h ⊢ with ha
    exact ih h

theorem foldl_add_pending (L : Nat) (idxs : List Nat) :
    ∀ st : PieceCheckerState,
    (∀ i ∈ idxs, pb_lookup i st.pending_blocks = none) → idxs.Nodup →
    idxs.foldl (fun s i => add_pending_block s ⟨i, 0, L⟩) st
      = ⟨st.new_states, st.old_states,
         st.pending_blocks ++ idxs.map (fun i => (i, [⟨i, 0, L⟩]))⟩ := by
  induction idxs with
  | nil =>
    intro st _ _
    simp
  | cons i rest ih =>
    intro st hnone hnodup
    simp only [List.foldl_cons]
    have hlook := hnone i (List.mem_cons_self i rest)
    have hadd : add_pending_block st ⟨i, 0, L⟩
        = ⟨st.new_states, st.old_states, st.pending_blocks ++ [(i, [⟨i, 0, L⟩])]⟩ := by
      unfold add_pending_block
      rw [pb_insert_lookup_none _ _ _ hlook]
    rw [hadd, ih _ ?_ (List.Nodup.of_cons hnodup)]
    · simp [List.append_assoc]
    · intro j hj
      have hji : i ≠ j := fun e => (List.nodup_cons.mp hnodup).1 (e ▸ hj)
      exact pb_lookup_append_none j st.pending_blocks i _
        (hnone j (List.mem_cons_of_mem _ hj)) hji

/-- C9.  PieceChecker::new first validates the file sizes: on a validation
error it returns that error (and the tracker is never seeded); on success
it returns the checker over the validated file system whose tracker holds
exactly one pending descriptor per piece index 0..piece count - 1, each
with offset 0 and length the nominal piece length, and empty verdict
sets. -/
theorem c9_new_validates_then_seeds (fs : SimFS) (info_dict : InfoDictionary) :
    (∀ e, validate_files_sizes fs info_dict = Except.error e →
      PieceChecker.new fs info_dict = Except.error e) ∧
    (∀ fs', validate_files_sizes fs info_dict = Except.ok fs' →
      PieceChecker.new fs info_dict = Except.ok ⟨fs',
        ⟨[], [], (List.range info_dict.pieces.length).map
          (fun i => (i, [⟨i, 0, info_dict.piece_length⟩]))⟩⟩) := by
  have hfill : fill_checker_state info_dict emptyCheckerState
      = ⟨[], [], (List.range info_dict.pieces.length).map
          (fun i => (i, [⟨i, 0, info_dict.piece_length⟩]))⟩ := by
    unfold fill_checker_state emptyCheckerState
    rw [foldl_add_pending info_dict.piece_length (List.range info_dict.pieces.length)
      ⟨[], [], []⟩ (fun i _ => rfl) (List.nodup_range _)]
    simp
  constructor
  · intro e he
    unfold PieceChecker.new
    rw [he]
  · intro fs' h
    unfold PieceChecker.new
    rw [h, hfill]

/-- C9 witness: a fresh checker over an empty file system and a two-piece
dictionary seeds pending blocks for indexes 0 and 1. -/
theorem c9_new_validates_then_seeds_witness :
    PieceChecker.new c9FS c9Dict = Except.ok ⟨c9FS,
      ⟨[], [], (List.range c9Dict.pieces.length).map
        (fun i => (i, [⟨i, 0, c9Dict.piece_length⟩]))⟩⟩ :=
  (c9_new_validates_then_seeds c9FS c9Dict).2 c9FS rfl
